import Mathlib

/-!
Verification of the beep-pattern decoding engine of
`ups-power-status-from-beeps` (the polling variant, `src/main.rs`):
the debounced edge-timing state machine, the bounded measurement
histories, the tolerance-based status classifier and the deduplicating
status reporter.

Durations and timestamps are modelled in microseconds as `Nat`
(the source compares `Duration` values via `as_micros()`); the `f64`
error margin of `close_enough` is modelled as `ℚ` (every comparison we
prove about it is exact, none rests on rounding).  The source passes
`Duration` constants where `close_enough` expects an `f64` margin
(a type error), so the classifier takes the two margins as parameters
and the theorems quantify over them.  The source's debounce comparisons
both use the undeclared identifier `MAX_BOUNCE_DURATION`; the state
machine takes that threshold as a parameter.
-/

namespace UPS

/-- The closed status enumeration from the source. -/
inductive Status where
  | OnMains
  | OnBattery
  | LowOnBattery
  | NoLoadOnBattery
  | OverloadOrShortCircuitOnBattery
  | OverloadOrShortCircuitOnMains
  | AdvanceLowRuntimeOnMains
  | OverTemperatureOnMains
  | OverTemperatureOnBatteryOrInternalError
  | ReplaceBattery
  | Unknown
deriving DecidableEq, Repr

def MAX_ENTRIES : Nat := 10

/-- `ERROR_MARGIN: f64 = 0.05`, exact as a rational. -/
def ERROR_MARGIN : ℚ := 5 / 100

def TIMEOUT_DURATION : Nat := 3000000

def ZERO_DURATION : Nat := 0

def TARGET_NORMAL_BEEP_DURATION : Nat := 250000

def TARGET_LONG_BEEP_DURATION : Nat := 2000000

def BEEP_BOUNCE_MAX_DURATION : Nat := 50000

def INTER_BEEP_BOUNCE_MAX_DURATION : Nat := 300000

/-- `STATUS_DESCRIPTIONS`, the description map, as a total function on the
closed enumeration. -/
def STATUS_DESCRIPTIONS : Status → String
  | Status.OnBattery => "On battery power, no issues detected"
  | Status.LowOnBattery => "Low battery, power backup will shut down in 1 minute"
  | Status.NoLoadOnBattery => "Battery saver mode is enabled and power load is below 30W, power backup will shut down in 2 minutes"
  | Status.OverloadOrShortCircuitOnBattery => "Overload or short circuit has occured on battery power, power backup will shut down in 5 minutes"
  | Status.OverloadOrShortCircuitOnMains => "Overload or short circuit has occured on mains power"
  | Status.AdvanceLowRuntimeOnMains => "Battery is on mains power and will have low runtime if it has to shift to battery power"
  | Status.OverTemperatureOnMains => "Battery is over temperature on mains power"
  | Status.OnMains => "On mains power, no issues detected"
  | Status.OverTemperatureOnBatteryOrInternalError => "Battery is either over temperature on battery power or an internal error has occured"
  | Status.ReplaceBattery => "Battery needs replacement"
  | Status.Unknown => "Appropriate state could not be detected"

/-- The Status Reference Table in its fixed declaration order:
`(status, target beep duration, target gap duration)`, microseconds. -/
def STATUS_BEEP_DURATIONS : List (Status × Nat × Nat) :=
  [ (Status.OnBattery, TARGET_NORMAL_BEEP_DURATION, 60000000),
    (Status.LowOnBattery, TARGET_NORMAL_BEEP_DURATION, 1000000),
    (Status.NoLoadOnBattery, TARGET_NORMAL_BEEP_DURATION, 10000000),
    (Status.OverloadOrShortCircuitOnBattery, TARGET_NORMAL_BEEP_DURATION, 2000000),
    (Status.OverloadOrShortCircuitOnMains, TARGET_LONG_BEEP_DURATION, 2000000),
    (Status.AdvanceLowRuntimeOnMains, TARGET_LONG_BEEP_DURATION, 13000000),
    (Status.OverTemperatureOnMains, TARGET_NORMAL_BEEP_DURATION, 4000000),
    (Status.OnMains, ZERO_DURATION, TIMEOUT_DURATION),
    (Status.OverTemperatureOnBatteryOrInternalError, TIMEOUT_DURATION, ZERO_DURATION),
    (Status.ReplaceBattery, TARGET_LONG_BEEP_DURATION, 40000000) ]

/-- `close_enough` exactly as the source writes it:
`(duration.as_micros() as f64 - target.as_micros() as f64).abs()
 < target.as_micros() as f64 * error_margin`. -/
def close_enough (duration target : Nat) (error_margin : ℚ) : Bool :=
  decide (|(duration : ℚ) - (target : ℚ)| < (target : ℚ) * error_margin)

/-- Modelled from the spec: the intended tolerance match of §4.2, which the
source's `close_enough` lacks a case for — relative 5% margin for a non-zero
target, the fixed absolute bounce tolerance when the target is zero.
Over integer microseconds, `|d - t| < t * (5/100)` is exactly
`20 * |d - t| < t`, written with truncated subtraction. -/
def close_enough_spec (duration target max_absolute_bounce : Nat) : Bool :=
  if target = 0 then decide (duration < max_absolute_bounce)
  else decide (20 * ((duration - target) + (target - duration)) < target)

/-- The match condition of one table row: the body of the source's loop in
`get_status_from_beep_durations`, with the (ill-typed at the call site)
margins as parameters. -/
def rowMatches (emb emg : ℚ) (beep inter_beep : Nat) (row : Status × Nat × Nat) : Bool :=
  close_enough beep row.2.1 emb && close_enough inter_beep row.2.2 emg

/-- First-match scan of a status table, the source's `for`-loop with its
`return Status::Unknown` fallback. -/
def scanStatuses (p : Status × Nat × Nat → Bool) : List (Status × Nat × Nat) → Status
  | [] => Status.Unknown
  | row :: rest => if p row then row.1 else scanStatuses p rest

/-- `get_status_from_beep_durations` from the source, parameterized by the
two margins its `close_enough` calls pass (the source passes
`BEEP_BOUNCE_MAX_DURATION` and `INTER_BEEP_BOUNCE_MAX_DURATION`, `Duration`
values, where `f64` is expected). -/
def get_status_from_beep_durations (emb emg : ℚ) (beep inter_beep : Nat) : Status :=
  scanStatuses (rowMatches emb emg beep inter_beep) STATUS_BEEP_DURATIONS

/-- Modelled from the spec: one row's match condition under the intended
tolerance rule of §4.2. -/
def rowMatchesSpec (beep inter_beep : Nat) (row : Status × Nat × Nat) : Bool :=
  close_enough_spec beep row.2.1 BEEP_BOUNCE_MAX_DURATION &&
    close_enough_spec inter_beep row.2.2 INTER_BEEP_BOUNCE_MAX_DURATION

/-- Modelled from the spec: the classifier of §4.2 (same first-match scan as
the source, tolerance rule with the zero-target absolute case). -/
def get_status_spec (beep inter_beep : Nat) : Status :=
  scanStatuses (rowMatchesSpec beep inter_beep) STATUS_BEEP_DURATIONS

/-- Edge polarity.  In this source a `High` edge starts a beep and a `Low`
edge ends it (`Level::Low` is the branch that computes `beep_duration`). -/
inductive Level where
  | Low
  | High
deriving DecidableEq, Repr

/-- One iteration's input: an edge with its (monotonic, microsecond)
timestamp, or a poll timeout. -/
inductive Event where
  | edge (level : Level) (now : Nat)
  | timeout
deriving DecidableEq, Repr

/-- The mutable state of `main`'s loop, plus the list of descriptions
emitted so far (the `println!` side effects, in order). -/
structure DecoderState where
  beep_durations : List Nat
  inter_beep_durations : List Nat
  current_beep_start_time : Option Nat
  last_beep_end_time : Option Nat
  last_status : Option Status
  emitted : List String
deriving DecidableEq, Repr

/-- The state at process start: empty histories, no pending timestamps,
no last status, nothing printed. -/
def initState : DecoderState :=
  { beep_durations := []
    inter_beep_durations := []
    current_beep_start_time := none
    last_beep_end_time := none
    last_status := none
    emitted := [] }

/-- `update_and_report_status`: returns the new `last_status` and the
descriptions printed (one when the status changed, none otherwise). -/
def update_and_report_status (last_status : Option Status) (new_status : Status) :
    Option Status × List String :=
  if last_status ≠ some new_status then
    (some new_status, [STATUS_DESCRIPTIONS new_status])
  else (last_status, [])

/-- A call of `update_and_report_status` applied to the loop state. -/
def applyReport (s : DecoderState) (new_status : Status) : DecoderState :=
  let r := update_and_report_status s.last_status new_status
  { s with last_status := r.1, emitted := s.emitted ++ r.2 }

/-- `history.push(d)` followed by
`if history.len() > MAX_ENTRIES { history.remove(0); }`. -/
def pushBounded (history : List Nat) (d : Nat) : List Nat :=
  let h2 := history ++ [d]
  if MAX_ENTRIES < h2.length then h2.drop 1 else h2

/-- One iteration of `main`'s loop, transcribed from the source.
`bounce_max` stands for the undeclared identifier `MAX_BOUNCE_DURATION`
the source compares both durations against; `classify` stands for
`get_status_from_beep_durations`, whose margin arguments are ill-typed in
the source (see `get_status_from_beep_durations`). -/
def processEvent (bounce_max : Nat) (classify : Nat → Nat → Status)
    (s : DecoderState) : Event → DecoderState
  | Event.edge Level.Low now =>
    let s1 := if s.last_beep_end_time = none then
      { s with last_beep_end_time := some now } else s
    match s.current_beep_start_time with
    | some start =>
      let beep_duration := now - start
      if bounce_max < beep_duration then
        let s2 := { s1 with beep_durations := pushBounded s1.beep_durations beep_duration }
        let s3 :=
          if s2.beep_durations ≠ [] ∧ s2.inter_beep_durations ≠ [] then
            applyReport s2 (classify (s2.beep_durations.getLastD 0)
              (s2.inter_beep_durations.getLastD 0))
          else s2
        { s3 with current_beep_start_time := none }
      else
        let s2 := if 0 < s1.inter_beep_durations.length then
          { s1 with inter_beep_durations := s1.inter_beep_durations.dropLast } else s1
        { s2 with current_beep_start_time := none }
    | none => s1
  | Event.edge Level.High now =>
    let s1 := if s.current_beep_start_time = none then
      { s with current_beep_start_time := some now } else s
    match s.last_beep_end_time with
    | some lastEnd =>
      let inter_beep_duration := now - lastEnd
      let s2 :=
        if bounce_max < inter_beep_duration then
          { s1 with inter_beep_durations := pushBounded s1.inter_beep_durations inter_beep_duration }
        else if 0 < s1.beep_durations.length then
          { s1 with beep_durations := s1.beep_durations.dropLast }
        else s1
      { s2 with last_beep_end_time := none }
    | none => s1
  | Event.timeout =>
    if s.beep_durations ≠ [] ∧ s.inter_beep_durations ≠ [] then
      if s.current_beep_start_time.isSome ∧ s.last_beep_end_time = none then
        applyReport s (classify TIMEOUT_DURATION ZERO_DURATION)
      else if s.current_beep_start_time = none ∧ s.last_beep_end_time.isSome then
        applyReport s (classify ZERO_DURATION TIMEOUT_DURATION)
      else
        applyReport s Status.Unknown
    else s

/-- Run the loop over a sequence of events. -/
def processEvents (bounce_max : Nat) (classify : Nat → Nat → Status)
    (s : DecoderState) : List Event → DecoderState
  | [] => s
  | e :: rest => processEvents bounce_max classify (processEvent bounce_max classify s e) rest

/-- A sequence of `update_and_report_status` calls, threading `last_status`
and collecting the emissions. -/
def runReports (last_status : Option Status) : List Status → Option Status × List String
  | [] => (last_status, [])
  | st :: rest =>
    let r := update_and_report_status last_status st
    let r2 := runReports r.1 rest
    (r2.1, r.2 ++ r2.2)

/-- `Vec::pop` modelled as a partial operation: fails on an empty history. -/
def popChecked (l : List Nat) : Option (List Nat) :=
  if l = [] then none else some l.dropLast

/-- `Vec::remove(0)` modelled as a partial operation. -/
def removeHeadChecked (l : List Nat) : Option (List Nat) :=
  if l = [] then none else some (l.drop 1)

/-- `pushBounded` with its `remove(0)` taken as partial. -/
def pushBoundedChecked (history : List Nat) (d : Nat) : Option (List Nat) :=
  let h2 := history ++ [d]
  if MAX_ENTRIES < h2.length then removeHeadChecked h2 else some h2

/-- One loop iteration with every partial container operation made
explicit: `last().unwrap()` is `getLast?` (fails on an empty history),
`pop()` and `remove(0)` fail on an empty history.  Returns `none` when
any such operation is reached on an empty history. -/
def processEventChecked (bounce_max : Nat) (classify : Nat → Nat → Status)
    (s : DecoderState) : Event → Option DecoderState
  | Event.edge Level.Low now =>
    let s1 := if s.last_beep_end_time = none then
      { s with last_beep_end_time := some now } else s
    match s.current_beep_start_time with
    | some start =>
      let beep_duration := now - start
      if bounce_max < beep_duration then
        match pushBoundedChecked s1.beep_durations beep_duration with
        | none => none
        | some bd =>
          let s2 := { s1 with beep_durations := bd }
          if s2.beep_durations ≠ [] ∧ s2.inter_beep_durations ≠ [] then
            match s2.beep_durations.getLast?, s2.inter_beep_durations.getLast? with
            | some b, some g =>
              some { applyReport s2 (classify b g) with current_beep_start_time := none }
            | _, _ => none
          else some { s2 with current_beep_start_time := none }
      else
        if 0 < s1.inter_beep_durations.length then
          match popChecked s1.inter_beep_durations with
          | none => none
          | some l => some { s1 with inter_beep_durations := l, current_beep_start_time := none }
        else some { s1 with current_beep_start_time := none }
    | none => some s1
  | Event.edge Level.High now =>
    let s1 := if s.current_beep_start_time = none then
      { s with current_beep_start_time := some now } else s
    match s.last_beep_end_time with
    | some lastEnd =>
      let inter_beep_duration := now - lastEnd
      if bounce_max < inter_beep_duration then
        match pushBoundedChecked s1.inter_beep_durations inter_beep_duration with
        | none => none
        | some gd => some { s1 with inter_beep_durations := gd, last_beep_end_time := none }
      else
        if 0 < s1.beep_durations.length then
          match popChecked s1.beep_durations with
          | none => none
          | some l => some { s1 with beep_durations := l, last_beep_end_time := none }
        else some { s1 with last_beep_end_time := none }
    | none => some s1
  | Event.timeout =>
    if s.beep_durations ≠ [] ∧ s.inter_beep_durations ≠ [] then
      if s.current_beep_start_time.isSome ∧ s.last_beep_end_time = none then
        some (applyReport s (classify TIMEOUT_DURATION ZERO_DURATION))
      else if s.current_beep_start_time = none ∧ s.last_beep_end_time.isSome then
        some (applyReport s (classify ZERO_DURATION TIMEOUT_DURATION))
      else
        some (applyReport s Status.Unknown)
    else some s

/-- Run of the checked loop: `none` as soon as one iteration fails. -/
def processEventsChecked (bounce_max : Nat) (classify : Nat → Nat → Status)
    (s : DecoderState) : List Event → Option DecoderState
  | [] => some s
  | e :: rest =>
    match processEventChecked bounce_max classify s e with
    | none => none
    | some s2 => processEventsChecked bounce_max classify s2 rest

/-! ### Supporting lemmas -/

/-- With a zero target the source's `close_enough` rejects every duration:
the error range is `0 * error_margin = 0` and no absolute value is below 0. -/
theorem close_enough_zero (d : Nat) (m : ℚ) : close_enough d 0 m = false := by
  simp only [close_enough, Nat.cast_zero, sub_zero, zero_mul,
    decide_eq_false_iff_not, not_lt]
  exact abs_nonneg _

/-- A first-match scan returns `Unknown` or the status of a matching row. -/
theorem scanStatuses_result (p : Status × Nat × Nat → Bool) :
    ∀ l : List (Status × Nat × Nat),
      scanStatuses p l = Status.Unknown ∨
        ∃ r ∈ l, p r = true ∧ r.1 = scanStatuses p l
  | [] => Or.inl rfl
  | row :: rest => by
    by_cases h : p row = true
    · exact Or.inr ⟨row, List.mem_cons_self row rest, h, by simp [scanStatuses, h]⟩
    · have hb : p row = false := by simpa using h
      rcases scanStatuses_result p rest with h1 | ⟨r, hr, hpr, he⟩
      · left
        simpa [scanStatuses, hb] using h1
      · exact Or.inr ⟨r, List.mem_cons_of_mem row hr, hpr, by simpa [scanStatuses, hb] using he⟩

/-- The source's classifier can never answer `OnMains` or
`OverTemperatureOnBatteryOrInternalError`, whatever margins its ill-typed
`close_enough` calls are read as: those rows contain a zero target, and the
source's `close_enough` rejects everything at a zero target. -/
theorem get_status_code_no_zero_rows (emb emg : ℚ) (beep inter_beep : Nat) :
    get_status_from_beep_durations emb emg beep inter_beep ≠ Status.OnMains ∧
      get_status_from_beep_durations emb emg beep inter_beep ≠
        Status.OverTemperatureOnBatteryOrInternalError := by
  have hscan := scanStatuses_result (rowMatches emb emg beep inter_beep) STATUS_BEEP_DURATIONS
  constructor
  · intro heq
    rcases hscan with h1 | ⟨r, hr, hpr, he⟩
    · rw [get_status_from_beep_durations] at heq
      rw [heq] at h1
      exact absurd h1 (by decide)
    · rw [get_status_from_beep_durations] at heq
      rw [heq] at he
      have hbz : r.2.1 = 0 := by
        have : ∀ r ∈ STATUS_BEEP_DURATIONS, r.1 = Status.OnMains → r.2.1 = 0 := by decide
        exact this r hr he
      have hbeep : close_enough beep r.2.1 emb = true := (Bool.and_eq_true_iff.mp hpr).1
      rw [hbz, close_enough_zero] at hbeep
      exact Bool.false_ne_true hbeep
  · intro heq
    rcases hscan with h1 | ⟨r, hr, hpr, he⟩
    · rw [get_status_from_beep_durations] at heq
      rw [heq] at h1
      exact absurd h1 (by decide)
    · rw [get_status_from_beep_durations] at heq
      rw [heq] at he
      have hgz : r.2.2 = 0 := by
        have : ∀ r ∈ STATUS_BEEP_DURATIONS,
            r.1 = Status.OverTemperatureOnBatteryOrInternalError → r.2.2 = 0 := by decide
        exact this r hr he
      have hgap : close_enough inter_beep r.2.2 emg = true := (Bool.and_eq_true_iff.mp hpr).2
      rw [hgz, close_enough_zero] at hgap
      exact Bool.false_ne_true hgap

theorem getLast?_of_ne_nil (l : List Nat) (h : l ≠ []) :
    l.getLast? = some (l.getLastD 0) := by
  induction l with
  | nil => exact absurd rfl h
  | cons a t ih =>
    cases t with
    | nil => rfl
    | cons b u =>
      have := ih (by simp)
      simpa [List.getLast?_cons_cons, List.getLastD_cons] using this

theorem pushBounded_ne_nil (h : List Nat) (d : Nat) : pushBounded h d ≠ [] := by
  simp only [pushBounded, MAX_ENTRIES]
  split
  · rename_i hlen
    apply List.length_pos.mp
    rw [List.length_drop, List.length_append]
    simp at hlen
    simp
    omega
  · simp

theorem pushBounded_length (h : List Nat) (d : Nat) (hh : h.length ≤ MAX_ENTRIES) :
    (pushBounded h d).length ≤ MAX_ENTRIES := by
  simp only [pushBounded, MAX_ENTRIES] at *
  split <;> rename_i hlen <;> simp at hlen ⊢ <;> omega

theorem pushBounded_full (h : List Nat) (d : Nat) (hh : h.length = MAX_ENTRIES) :
    pushBounded h d = h.drop 1 ++ [d] := by
  simp only [pushBounded, MAX_ENTRIES] at *
  rw [if_pos (by simp [hh])]
  exact List.drop_append_of_le_length (by omega)

theorem pushBoundedChecked_eq (h : List Nat) (d : Nat) :
    pushBoundedChecked h d = some (pushBounded h d) := by
  simp only [pushBoundedChecked, pushBounded, removeHeadChecked]
  have hne : ¬(h ++ [d] = []) := by simp
  split <;> simp [hne]

theorem applyReport_beep (s : DecoderState) (st : Status) :
    (applyReport s st).beep_durations = s.beep_durations := rfl

theorem applyReport_gap (s : DecoderState) (st : Status) :
    (applyReport s st).inter_beep_durations = s.inter_beep_durations := rfl

theorem processEventChecked_eq (bounce_max : Nat) (classify : Nat → Nat → Status)
    (s : DecoderState) (e : Event) :
    processEventChecked bounce_max classify s e =
      some (processEvent bounce_max classify s e) := by
  cases e with
  | timeout =>
    simp only [processEvent, processEventChecked]
    split
    · split
      · rfl
      · split <;> rfl
    · rfl
  | edge lvl now =>
    cases lvl with
    | Low =>
      simp only [processEvent, processEventChecked]
      cases hc : s.current_beep_start_time with
      | none => rfl
      | some start =>
        dsimp only
        by_cases hl : s.last_beep_end_time = none
        · rw [if_pos hl]
          by_cases hb : bounce_max < now - start
          · rw [if_pos hb, pushBoundedChecked_eq]
            dsimp only
            split
            · rename_i hguard
              rw [getLast?_of_ne_nil _ hguard.1, getLast?_of_ne_nil _ hguard.2]
            · rfl
          · rw [if_neg hb]
            split
            · rename_i hlen
              have hne : ({ s with last_beep_end_time := some now } : DecoderState).inter_beep_durations ≠ [] :=
                List.length_pos.mp hlen
              simp only [popChecked, if_neg hne]
            · rfl
        · rw [if_neg hl]
          by_cases hb : bounce_max < now - start
          · rw [if_pos hb, pushBoundedChecked_eq]
            dsimp only
            split
            · rename_i hguard
              rw [getLast?_of_ne_nil _ hguard.1, getLast?_of_ne_nil _ hguard.2]
            · rfl
          · rw [if_neg hb]
            split
            · rename_i hlen
              have hne : s.inter_beep_durations ≠ [] := List.length_pos.mp hlen
              simp only [popChecked, if_neg hne]
            · rfl
    | High =>
      simp only [processEvent, processEventChecked]
      cases hc : s.last_beep_end_time with
      | none => rfl
      | some lastEnd =>
        dsimp only
        by_cases hp : s.current_beep_start_time = none
        · rw [if_pos hp]
          by_cases hb : bounce_max < now - lastEnd
          · rw [if_pos hb, pushBoundedChecked_eq]
            rw [if_pos hb]
          · rw [if_neg hb]
            split
            · rename_i hlen
              have hne : ({ s with current_beep_start_time := some now } : DecoderState).beep_durations ≠ [] :=
                List.length_pos.mp hlen
              simp only [popChecked, if_neg hne]
            · rfl
        · rw [if_neg hp]
          by_cases hb : bounce_max < now - lastEnd
          · rw [if_pos hb, pushBoundedChecked_eq]
            rw [if_pos hb]
          · rw [if_neg hb]
            split
            · rename_i hlen
              have hne : s.beep_durations ≠ [] := List.length_pos.mp hlen
              simp only [popChecked, if_neg hne]
            · rfl

theorem processEvent_length (bounce_max : Nat) (classify : Nat → Nat → Status)
    (s : DecoderState) (e : Event)
    (hb : s.beep_durations.length ≤ MAX_ENTRIES)
    (hg : s.inter_beep_durations.length ≤ MAX_ENTRIES) :
    (processEvent bounce_max classify s e).beep_durations.length ≤ MAX_ENTRIES ∧
      (processEvent bounce_max classify s e).inter_beep_durations.length ≤ MAX_ENTRIES := by
  have hdropb : s.beep_durations.dropLast.length ≤ MAX_ENTRIES := by
    rw [List.length_dropLast]
    omega
  have hdropg : s.inter_beep_durations.dropLast.length ≤ MAX_ENTRIES := by
    rw [List.length_dropLast]
    omega
  cases e with
  | timeout =>
    simp only [processEvent]
    split
    · split
      · exact ⟨hb, hg⟩
      · split
        · exact ⟨hb, hg⟩
        · exact ⟨hb, hg⟩
    · exact ⟨hb, hg⟩
  | edge lvl now =>
    cases lvl with
    | Low =>
      simp only [processEvent]
      cases hc : s.current_beep_start_time with
      | none =>
        dsimp only
        split <;> exact ⟨hb, hg⟩
      | some start =>
        dsimp only
        by_cases hl : s.last_beep_end_time = none
        · rw [if_pos hl]
          by_cases hcommit : bounce_max < now - start
          · rw [if_pos hcommit]
            split
            · exact ⟨pushBounded_length _ _ hb, hg⟩
            · exact ⟨pushBounded_length _ _ hb, hg⟩
          · rw [if_neg hcommit]
            split
            · exact ⟨hb, hdropg⟩
            · exact ⟨hb, hg⟩
        · rw [if_neg hl]
          by_cases hcommit : bounce_max < now - start
          · rw [if_pos hcommit]
            split
            · exact ⟨pushBounded_length _ _ hb, hg⟩
            · exact ⟨pushBounded_length _ _ hb, hg⟩
          · rw [if_neg hcommit]
            split
            · exact ⟨hb, hdropg⟩
            · exact ⟨hb, hg⟩
    | High =>
      simp only [processEvent]
      cases hc : s.last_beep_end_time with
      | none =>
        dsimp only
        split <;> exact ⟨hb, hg⟩
      | some lastEnd =>
        dsimp only
        by_cases hp : s.current_beep_start_time = none
        · rw [if_pos hp]
          by_cases hcommit : bounce_max < now - lastEnd
          · rw [if_pos hcommit]
            exact ⟨hb, pushBounded_length _ _ hg⟩
          · rw [if_neg hcommit]
            split
            · exact ⟨hdropb, hg⟩
            · exact ⟨hb, hg⟩
        · rw [if_neg hp]
          by_cases hcommit : bounce_max < now - lastEnd
          · rw [if_pos hcommit]
            exact ⟨hb, pushBounded_length _ _ hg⟩
          · rw [if_neg hcommit]
            split
            · exact ⟨hdropb, hg⟩
            · exact ⟨hb, hg⟩

theorem processEvents_length (bounce_max : Nat) (classify : Nat → Nat → Status) :
    ∀ (es : List Event) (s : DecoderState),
      s.beep_durations.length ≤ MAX_ENTRIES →
      s.inter_beep_durations.length ≤ MAX_ENTRIES →
      (processEvents bounce_max classify s es).beep_durations.length ≤ MAX_ENTRIES ∧
        (processEvents bounce_max classify s es).inter_beep_durations.length ≤ MAX_ENTRIES
  | [], s, hb, hg => ⟨hb, hg⟩
  | e :: rest, s, hb, hg => by
    have h := processEvent_length bounce_max classify s e hb hg
    exact processEvents_length bounce_max classify rest _ h.1 h.2

/-- A first-match scan agrees with `List.find?` on the first matching row. -/
theorem scanStatuses_eq_find (p : Status × Nat × Nat → Bool) :
    ∀ l : List (Status × Nat × Nat),
      scanStatuses p l =
        (match l.find? p with
          | some row => row.1
          | none => Status.Unknown)
  | [] => rfl
  | row :: rest => by
    by_cases h : p row
    · simp [scanStatuses, h, List.find?_cons_of_pos]
    · have hb : p row = false := by simpa using h
      rw [List.find?_cons_of_neg _ (by simp [hb])]
      simpa [scanStatuses, hb] using scanStatuses_eq_find p rest

/-! ### The claims -/

/-- C1: the claim says `close_enough(actual, 0, max_absolute_bounce)` holds
iff `actual` is within the fixed absolute tolerance.  The source's
`close_enough` has no zero-target case: its error range is
`0 * error_margin = 0`, so at a zero target it rejects every actual duration
(whatever the margin argument), including `actual = 0`.  The spec-modelled
tolerance accepts `actual = 0` there, as the claim requires. -/
theorem claim1_close_enough_zero_target :
    (∀ (d : Nat) (m : ℚ), close_enough d 0 m = false) ∧
      close_enough_spec 0 0 BEEP_BOUNCE_MAX_DURATION = true ∧
      close_enough_spec 0 0 INTER_BEEP_BOUNCE_MAX_DURATION = true :=
  ⟨close_enough_zero, by decide, by decide⟩

/-- C2: round-trip classification of every table row.  Under the source's
`close_enough` the rows `(OnMains, 0, 3 s)` and `(OverTemperature…, 3 s, 0)`
can never be returned for any input and any margins — their zero target
rejects everything — so those two rows do not round-trip.  The spec-modelled
classifier round-trips every row. -/
theorem claim2_round_trip :
    (∀ (emb emg : ℚ) (beep inter_beep : Nat),
        get_status_from_beep_durations emb emg beep inter_beep ≠ Status.OnMains ∧
          get_status_from_beep_durations emb emg beep inter_beep ≠
            Status.OverTemperatureOnBatteryOrInternalError) ∧
      (STATUS_BEEP_DURATIONS.all fun row =>
        get_status_spec row.2.1 row.2.2 == row.1) = true :=
  ⟨get_status_code_no_zero_rows, by decide⟩

/-- C3: the classifier scans the table in declaration order and returns the
first row both of whose targets satisfy `close_enough` (the earliest match
wins, `List.find?` semantics), and `Unknown` when no row matches. -/
theorem claim3_first_match (emb emg : ℚ) (beep inter_beep : Nat) :
    get_status_from_beep_durations emb emg beep inter_beep =
      (match STATUS_BEEP_DURATIONS.find? (rowMatches emb emg beep inter_beep) with
        | some row => row.1
        | none => Status.Unknown) ∧
      ((∀ row ∈ STATUS_BEEP_DURATIONS, rowMatches emb emg beep inter_beep row = false) →
        get_status_from_beep_durations emb emg beep inter_beep = Status.Unknown) := by
  constructor
  · exact scanStatuses_eq_find _ STATUS_BEEP_DURATIONS
  · intro hnone
    rw [get_status_from_beep_durations, scanStatuses_eq_find _ STATUS_BEEP_DURATIONS,
      List.find?_eq_none.mpr fun row hr => by simp [hnone row hr]]

/-- Witness for C3 at a concrete no-match input (a 999 ms beep). -/
theorem claim3_witness :
    get_status_from_beep_durations ERROR_MARGIN ERROR_MARGIN 999000 999000 = Status.Unknown :=
  (claim3_first_match ERROR_MARGIN ERROR_MARGIN 999000 999000).2 (by
    intro row hr
    fin_cases hr <;>
      · simp only [rowMatches, Bool.and_eq_false_iff]
        exact Or.inl (by
          simp only [close_enough, decide_eq_false_iff_not, not_lt, ERROR_MARGIN,
            TARGET_NORMAL_BEEP_DURATION, TARGET_LONG_BEEP_DURATION,
            TIMEOUT_DURATION, ZERO_DURATION]
          norm_num))

/-- C4: timeout handling.  With both histories non-empty: a pending
beep-start with no pending gap-end classifies `(TIMEOUT_DURATION, 0)`;
a pending gap-end with no pending beep-start classifies
`(0, TIMEOUT_DURATION)`; any other pending configuration reports `Unknown`
directly; with either history empty a timeout changes nothing. -/
theorem claim4_timeout (bounce_max : Nat) (classify : Nat → Nat → Status) (s : DecoderState) :
    (s.beep_durations ≠ [] → s.inter_beep_durations ≠ [] →
      ((s.current_beep_start_time.isSome → s.last_beep_end_time = none →
          processEvent bounce_max classify s Event.timeout =
            applyReport s (classify TIMEOUT_DURATION ZERO_DURATION)) ∧
        (s.current_beep_start_time = none → s.last_beep_end_time.isSome →
          processEvent bounce_max classify s Event.timeout =
            applyReport s (classify ZERO_DURATION TIMEOUT_DURATION)) ∧
        ((s.current_beep_start_time.isSome ∧ s.last_beep_end_time.isSome) ∨
            (s.current_beep_start_time = none ∧ s.last_beep_end_time = none) →
          processEvent bounce_max classify s Event.timeout = applyReport s Status.Unknown))) ∧
      ((s.beep_durations = [] ∨ s.inter_beep_durations = []) →
        processEvent bounce_max classify s Event.timeout = s) := by
  constructor
  · intro hb hg
    refine ⟨?_, ?_, ?_⟩
    · intro h1 h2
      simp only [processEvent]
      rw [if_pos ⟨hb, hg⟩, if_pos ⟨h1, h2⟩]
    · intro h1 h2
      simp only [processEvent]
      rw [if_pos ⟨hb, hg⟩, if_neg (by simp [h1]), if_pos ⟨h1, h2⟩]
    · intro hcase
      simp only [processEvent]
      rcases hcase with ⟨h1, h2⟩ | ⟨h1, h2⟩
      · rw [if_pos ⟨hb, hg⟩, if_neg (by
          rintro ⟨-, hn⟩
          rw [hn] at h2
          simp at h2), if_neg (by
          rintro ⟨hn, -⟩
          rw [hn] at h1
          simp at h1)]
      · rw [if_pos ⟨hb, hg⟩, if_neg (by
          rintro ⟨hsome, -⟩
          rw [h1] at hsome
          simp at hsome), if_neg (by
          rintro ⟨-, hsome⟩
          rw [h2] at hsome
          simp at hsome)]
  · intro hcase
    simp only [processEvent]
    rw [if_neg (by
      rintro ⟨hb, hg⟩
      rcases hcase with h | h
      · exact hb h
      · exact hg h)]

/-- Witness for C4: a stalled beep (pending beep-start, no pending gap-end)
with one entry in each history classifies `(TIMEOUT_DURATION, 0)`. -/
theorem claim4_witness :
    processEvent 50000 get_status_spec
        { beep_durations := [250000], inter_beep_durations := [1000000],
          current_beep_start_time := some 7000000, last_beep_end_time := none,
          last_status := none, emitted := [] } Event.timeout =
      applyReport
        { beep_durations := [250000], inter_beep_durations := [1000000],
          current_beep_start_time := some 7000000, last_beep_end_time := none,
          last_status := none, emitted := [] }
        (get_status_spec TIMEOUT_DURATION ZERO_DURATION) :=
  ((claim4_timeout 50000 get_status_spec _).1 (by decide) (by decide)).1 (by decide) rfl

/-- C5: from the initial state, after any event sequence both histories hold
at most `MAX_ENTRIES` entries, and a commit into a full history drops the
oldest (head) entry. -/
theorem claim5_history_bound (bounce_max : Nat) (classify : Nat → Nat → Status)
    (es : List Event) :
    ((processEvents bounce_max classify initState es).beep_durations.length ≤ MAX_ENTRIES ∧
      (processEvents bounce_max classify initState es).inter_beep_durations.length ≤ MAX_ENTRIES) ∧
      ∀ (h : List Nat) (d : Nat), h.length = MAX_ENTRIES →
        pushBounded h d = h.drop 1 ++ [d] :=
  ⟨processEvents_length bounce_max classify es initState (by decide) (by decide),
    fun h d hh => pushBounded_full h d hh⟩

/-- Witness for C5: pushing into a full history evicts the oldest entry. -/
theorem claim5_witness :
    pushBounded [1, 2, 3, 4, 5, 6, 7, 8, 9, 10] 11 = [2, 3, 4, 5, 6, 7, 8, 9, 10, 11] :=
  (claim5_history_bound 0 (fun _ _ => Status.Unknown) []).2
    [1, 2, 3, 4, 5, 6, 7, 8, 9, 10] 11 (by decide)

/-- C6: a bounce-short measurement commits nothing and retracts the other
history's most recent entry.  A beep end whose measured duration is at most
the bounce threshold leaves the beep history unchanged, pops the most
recent gap entry (no-op on an empty gap history, `dropLast`), and emits
nothing; symmetrically for a bounce-short gap. -/
theorem claim6_bounce (bounce_max : Nat) (classify : Nat → Nat → Status)
    (s : DecoderState) (now start : Nat) :
    (s.current_beep_start_time = some start → now - start ≤ bounce_max →
      ((processEvent bounce_max classify s (Event.edge Level.Low now)).beep_durations =
          s.beep_durations ∧
        (processEvent bounce_max classify s (Event.edge Level.Low now)).inter_beep_durations =
          s.inter_beep_durations.dropLast ∧
        (processEvent bounce_max classify s (Event.edge Level.Low now)).emitted = s.emitted)) ∧
      (s.last_beep_end_time = some start → now - start ≤ bounce_max →
        ((processEvent bounce_max classify s (Event.edge Level.High now)).inter_beep_durations =
            s.inter_beep_durations ∧
          (processEvent bounce_max classify s (Event.edge Level.High now)).beep_durations =
            s.beep_durations.dropLast ∧
          (processEvent bounce_max classify s (Event.edge Level.High now)).emitted = s.emitted)) := by
  constructor
  · intro hc hle
    simp only [processEvent, hc]
    rw [if_neg (not_lt.mpr hle)]
    by_cases hl : s.last_beep_end_time = none
    · rw [if_pos hl]
      by_cases hlen : 0 < s.inter_beep_durations.length
      · rw [if_pos hlen]
        exact ⟨rfl, rfl, rfl⟩
      · rw [if_neg hlen]
        have hnil : s.inter_beep_durations = [] := List.length_eq_zero.mp (by omega)
        simp [hnil]
    · rw [if_neg hl]
      by_cases hlen : 0 < s.inter_beep_durations.length
      · rw [if_pos hlen]
        exact ⟨rfl, rfl, rfl⟩
      · rw [if_neg hlen]
        have hnil : s.inter_beep_durations = [] := List.length_eq_zero.mp (by omega)
        simp [hnil]
  · intro hc hle
    simp only [processEvent, hc]
    rw [if_neg (not_lt.mpr hle)]
    by_cases hp : s.current_beep_start_time = none
    · rw [if_pos hp]
      by_cases hlen : 0 < s.beep_durations.length
      · rw [if_pos hlen]
        exact ⟨rfl, rfl, rfl⟩
      · rw [if_neg hlen]
        have hnil : s.beep_durations = [] := List.length_eq_zero.mp (by omega)
        simp [hnil]
    · rw [if_neg hp]
      by_cases hlen : 0 < s.beep_durations.length
      · rw [if_pos hlen]
        exact ⟨rfl, rfl, rfl⟩
      · rw [if_neg hlen]
        have hnil : s.beep_durations = [] := List.length_eq_zero.mp (by omega)
        simp [hnil]

/-- Witness for C6: a 10 ms beep (below the 50 ms threshold) commits
nothing and pops the one gap entry. -/
theorem claim6_witness :
    (processEvent 50000 get_status_spec
        { beep_durations := [250000], inter_beep_durations := [1000000],
          current_beep_start_time := some 0, last_beep_end_time := none,
          last_status := none, emitted := [] }
        (Event.edge Level.Low 10000)).beep_durations = [250000] ∧
      (processEvent 50000 get_status_spec
          { beep_durations := [250000], inter_beep_durations := [1000000],
            current_beep_start_time := some 0, last_beep_end_time := none,
            last_status := none, emitted := [] }
          (Event.edge Level.Low 10000)).inter_beep_durations = [] ∧
      (processEvent 50000 get_status_spec
          { beep_durations := [250000], inter_beep_durations := [1000000],
            current_beep_start_time := some 0, last_beep_end_time := none,
            last_status := none, emitted := [] }
          (Event.edge Level.Low 10000)).emitted = [] :=
  (claim6_bounce 50000 get_status_spec _ 10000 0).1 rfl (by decide)

/-- Evaluation of one beep-end edge from a fresh pending-beep state: the
measured beep `d` is committed iff it exceeds the (single) bounce
threshold. -/
theorem beep_commit_eval (t d : Nat) :
    (processEvent t (fun _ _ => Status.Unknown)
        { beep_durations := [], inter_beep_durations := [],
          current_beep_start_time := some 0, last_beep_end_time := none,
          last_status := none, emitted := [] }
        (Event.edge Level.Low d)).beep_durations = if t < d then [d] else [] := by
  by_cases htd : t < d <;>
    simp [processEvent, pushBounded, MAX_ENTRIES, htd]

/-- Evaluation of one beep-start edge from a fresh pending-gap state: the
measured gap `d` is committed iff it exceeds the (single) bounce
threshold. -/
theorem gap_commit_eval (t d : Nat) :
    (processEvent t (fun _ _ => Status.Unknown)
        { beep_durations := [], inter_beep_durations := [],
          current_beep_start_time := none, last_beep_end_time := some 0,
          last_status := none, emitted := [] }
        (Event.edge Level.High d)).inter_beep_durations = if t < d then [d] else [] := by
  by_cases htd : t < d <;>
    simp [processEvent, pushBounded, MAX_ENTRIES, htd]

/-- C7: the claim needs the beep commit test to be `> 50 ms` and the gap
commit test to be `> 300 ms`.  The source compares both measurements
against the one (undeclared) `MAX_BOUNCE_DURATION`, and no single value of
it realizes both thresholds: a 300 ms measurement would have to commit as
a beep yet bounce as a gap. -/
theorem claim7_single_threshold (t : Nat) :
    ¬ ∀ d : Nat,
        ((processEvent t (fun _ _ => Status.Unknown)
            { beep_durations := [], inter_beep_durations := [],
              current_beep_start_time := some 0, last_beep_end_time := none,
              last_status := none, emitted := [] }
            (Event.edge Level.Low d)).beep_durations ≠ [] ↔
          BEEP_BOUNCE_MAX_DURATION < d) ∧
        ((processEvent t (fun _ _ => Status.Unknown)
            { beep_durations := [], inter_beep_durations := [],
              current_beep_start_time := none, last_beep_end_time := some 0,
              last_status := none, emitted := [] }
            (Event.edge Level.High d)).inter_beep_durations ≠ [] ↔
          INTER_BEEP_BOUNCE_MAX_DURATION < d) := by
  intro h
  have h1 := (h 300000).1
  have h2 := (h 300000).2
  rw [beep_commit_eval] at h1
  rw [gap_commit_eval] at h2
  have ht : t < 300000 := by
    by_contra hcon
    rw [if_neg hcon] at h1
    exact absurd (h1.mpr (by decide)) (by simp)
  rw [if_pos ht] at h2
  have : (300000 : Nat) < 300000 := h2.mp (by simp)
  omega

/-- Witness for C7 at the threshold value the beep side forces. -/
theorem claim7_witness :
    ¬ ∀ d : Nat,
        ((processEvent 50000 (fun _ _ => Status.Unknown)
            { beep_durations := [], inter_beep_durations := [],
              current_beep_start_time := some 0, last_beep_end_time := none,
              last_status := none, emitted := [] }
            (Event.edge Level.Low d)).beep_durations ≠ [] ↔
          BEEP_BOUNCE_MAX_DURATION < d) ∧
        ((processEvent 50000 (fun _ _ => Status.Unknown)
            { beep_durations := [], inter_beep_durations := [],
              current_beep_start_time := none, last_beep_end_time := some 0,
              last_status := none, emitted := [] }
            (Event.edge Level.High d)).inter_beep_durations ≠ [] ↔
          INTER_BEEP_BOUNCE_MAX_DURATION < d) :=
  claim7_single_threshold 50000

theorem runReports_replicate_same (st : Status) :
    ∀ k : Nat, runReports (some st) (List.replicate k st) = (some st, [])
  | 0 => rfl
  | k + 1 => by
    simp only [List.replicate, runReports, update_and_report_status]
    rw [if_neg (by simp)]
    simp [runReports_replicate_same st k]

/-- C8: `update_and_report_status` emits iff the status changed, always
leaves `last_status` equal to the status just reported, and a run of `n`
identical classifications from a differing last status emits exactly one
description. -/
theorem claim8_report_dedup :
    (∀ (last : Option Status) (new : Status),
        (update_and_report_status last new).1 = some new ∧
          ((update_and_report_status last new).2 ≠ [] ↔ last ≠ some new)) ∧
      ∀ (n : Nat) (st : Status) (last : Option Status),
        last ≠ some st → 0 < n →
        (runReports last (List.replicate n st)).2.length = 1 := by
  constructor
  · intro last new
    constructor
    · simp only [update_and_report_status]
      split
      · rfl
      · rename_i hcon
        simpa using hcon
    · simp only [update_and_report_status]
      split
      · rename_i hne
        simpa using hne
      · rename_i hcon
        simpa using hcon
  · intro n st last hne hpos
    cases n with
    | zero => omega
    | succ k =>
      simp only [List.replicate, runReports, update_and_report_status]
      rw [if_pos hne]
      simp [runReports_replicate_same st k]

/-- Witness for C8: three identical `Unknown` reports from a fresh reporter
emit exactly one description. -/
theorem claim8_witness :
    (runReports none (List.replicate 3 Status.Unknown)).2.length = 1 :=
  claim8_report_dedup.2 3 Status.Unknown none (by simp) (by decide)

theorem processEventsChecked_eq (bounce_max : Nat) (classify : Nat → Nat → Status) :
    ∀ (es : List Event) (s : DecoderState),
      processEventsChecked bounce_max classify s es =
        some (processEvents bounce_max classify s es)
  | [], _ => rfl
  | e :: rest, s => by
    simp only [processEventsChecked, processEvents, processEventChecked_eq]
    exact processEventsChecked_eq bounce_max classify rest _

/-- C10: from the initial empty state, no event sequence ever reaches a
partial container operation on an empty history: running the loop with
every `last().unwrap()`, `pop()` and `remove(0)` made partial never
fails, and agrees with the total transcription. -/
theorem claim10_guarded_partial_ops (bounce_max : Nat) (classify : Nat → Nat → Status)
    (es : List Event) :
    processEventsChecked bounce_max classify initState es =
      some (processEvents bounce_max classify initState es) :=
  processEventsChecked_eq bounce_max classify es initState

/-- C9: a beep within the 50 ms absolute tolerance of zero and a gap at or
above the 3 s target within its 5% tolerance classify as `OnMains` under the
spec-modelled tolerance rule, while the source's classifier can never
produce `OnMains` for any input or margins. -/
theorem claim9_on_mains (beep gap : Nat)
    (h1 : beep < BEEP_BOUNCE_MAX_DURATION)
    (h2 : TIMEOUT_DURATION ≤ gap)
    (h3 : gap < 3150000) :
    get_status_spec beep gap = Status.OnMains ∧
      ∀ (emb emg : ℚ), get_status_from_beep_durations emb emg beep gap ≠ Status.OnMains := by
  constructor
  · have hb250 : close_enough_spec beep TARGET_NORMAL_BEEP_DURATION BEEP_BOUNCE_MAX_DURATION = false := by
      simp only [close_enough_spec, TARGET_NORMAL_BEEP_DURATION, BEEP_BOUNCE_MAX_DURATION] at *
      rw [if_neg (by decide)]
      simp only [decide_eq_false_iff_not, not_lt]
      omega
    have hb2000 : close_enough_spec beep TARGET_LONG_BEEP_DURATION BEEP_BOUNCE_MAX_DURATION = false := by
      simp only [close_enough_spec, TARGET_LONG_BEEP_DURATION, BEEP_BOUNCE_MAX_DURATION] at *
      rw [if_neg (by decide)]
      simp only [decide_eq_false_iff_not, not_lt]
      omega
    have hb0 : close_enough_spec beep ZERO_DURATION BEEP_BOUNCE_MAX_DURATION = true := by
      simp only [close_enough_spec, ZERO_DURATION, BEEP_BOUNCE_MAX_DURATION] at *
      simpa using h1
    have hg3 : close_enough_spec gap TIMEOUT_DURATION INTER_BEEP_BOUNCE_MAX_DURATION = true := by
      simp only [close_enough_spec, TIMEOUT_DURATION] at *
      rw [if_neg (by decide)]
      simp only [decide_eq_true_eq]
      omega
    simp only [get_status_spec, STATUS_BEEP_DURATIONS, scanStatuses, rowMatchesSpec]
    simp [hb250, hb2000, hb0, hg3]
  · intro emb emg
    exact (get_status_code_no_zero_rows emb emg beep gap).1

/-- Witness for C9: an exactly-zero beep and exactly 3 s gap. -/
theorem claim9_witness :
    get_status_spec 0 3000000 = Status.OnMains ∧
      ∀ (emb emg : ℚ),
        get_status_from_beep_durations emb emg 0 3000000 ≠ Status.OnMains :=
  claim9_on_mains 0 3000000 (by decide) (by decide) (by decide)

end UPS
